import Mathlib

set_option maxRecDepth 8000

/-!
Shallow embedding of the WhatsApp RAG chatbot (src/main.py).

Records model the catalog entries of data.json: Python dict keys accessed
through `.get` become `Option` fields (`none` = key absent).  Strings are
manipulated through their character lists so that every operation is a
plain structural recursion.
-/

/-- One catalog entry (a program dict from data.json).  Every field the
code reads through `.get` is optional. -/
structure Record where
  program_name : Option String
  faculty_or_college : Option String
  program_schedule : Option String
  eligibility_criteria : Option String
  additional_requirements : Option String
  entry_test_streams : Option (List String)
  notes : Option String
  deriving DecidableEq

/-- Python `str.lower()` applied to the character list of a string. -/
def lowerStr (s : String) : List Char :=
  s.data.map Char.toLower

/-- Worker for `splitWs`: accumulates the current token (reversed) while
scanning the characters. -/
def splitWsAux : List Char → List Char → List (List Char)
  | [], acc => if acc = [] then [] else [acc.reverse]
  | c :: rest, acc =>
    if c.isWhitespace then
      if acc = [] then splitWsAux rest [] else acc.reverse :: splitWsAux rest []
    else
      splitWsAux rest (c :: acc)

/-- Python `str.split()` with no argument: split on whitespace runs and
drop empty fragments. -/
def splitWs (l : List Char) : List (List Char) :=
  splitWsAux l []

/-- Python substring containment `needle in hay`. -/
def containsSub (hay needle : List Char) : Bool :=
  decide (needle <:+: hay)

/-- The per-record test of `search_programs` (src/main.py lines 60-69):
the record is kept when some whitespace token of its lowercased
`program_name`, or else of its lowercased `faculty_or_college`, occurs as
a substring of the lowercased user message. -/
def recordMatches (user_message_lower : List Char) (r : Record) : Bool :=
  (splitWs (lowerStr (r.program_name.getD ""))).any
      (fun keyword => containsSub user_message_lower keyword)
    || (splitWs (lowerStr (r.faculty_or_college.getD ""))).any
      (fun keyword => containsSub user_message_lower keyword)

/-- `search_programs` (src/main.py lines 51-75).  The module-level global
`university_programs` is passed explicitly.  Records whose name/faculty
tokens appear in the lowercased message are collected in catalog order;
if none match and the catalog is non-empty the first 3 records are
returned as general context. -/
def search_programs (user_message : String) (university_programs : List Record) :
    List Record :=
  if university_programs.filter (recordMatches (lowerStr user_message)) = []
      ∧ university_programs ≠ [] then
    university_programs.take 3
  else
    university_programs.filter (recordMatches (lowerStr user_message))

/-- The lines contributed to `context_parts` by one record
(src/main.py lines 84-101): four always-present labeled lines with
`N/A` defaults, three optional lines kept only when the field is truthy,
and the empty separator line. -/
def renderRecord (i : Nat) (program : Record) : List String :=
  ["Program " ++ toString (i + 1) ++ ":",
   "Program Name: " ++ program.program_name.getD "N/A",
   "Faculty/College: " ++ program.faculty_or_college.getD "N/A",
   "Schedule: " ++ program.program_schedule.getD "N/A",
   "Eligibility Criteria: " ++ program.eligibility_criteria.getD "N/A"]
  ++ (match program.additional_requirements with
      | some s => if s = "" then [] else ["Additional Requirements: " ++ s]
      | none => [])
  ++ (if program.entry_test_streams.getD [] = [] then []
      else ["Entry Test Streams: " ++ String.intercalate ", " (program.entry_test_streams.getD [])])
  ++ (match program.notes with
      | some s => if s = "" then [] else ["Notes: " ++ s]
      | none => [])
  ++ [""]

/-- The full `context_parts` list built by the enumeration loop of
`format_program_context`, starting at index `i`. -/
def format_parts : Nat → List Record → List String
  | _, [] => []
  | i, program :: rest => renderRecord i program ++ format_parts (i + 1) rest

/-- Python `"\n".join` on character lists. -/
def joinWithNl : List (List Char) → List Char
  | [] => []
  | [x] => x
  | x :: xs => x ++ '\n' :: joinWithNl xs

/-- `format_program_context` (src/main.py lines 77-103). -/
def format_program_context (programs : List Record) : String :=
  if programs = [] then "No specific program information available."
  else String.mk (joinWithNl ((format_parts 0 programs).map String.data))

/-- The possible outcomes of opening and JSON-decoding `data.json`, the
three cases distinguished by the try/except of `load_university_data`. -/
inductive LoadResult where
  | fileNotFound
  | jsonDecodeError
  | ok (data : List Record)
  deriving DecidableEq

/-- `load_university_data` (src/main.py lines 37-49): the parsed data on
success, and the empty catalog on `FileNotFoundError` or
`json.JSONDecodeError`; no case re-raises. -/
def load_university_data : LoadResult → List Record
  | .fileNotFound => []
  | .jsonDecodeError => []
  | .ok data => data

/-- The fixed instruction preamble of `generate_response_with_gemini`. -/
def system_prompt : String :=
  "You are a friendly and helpful university admissions assistant for the University of Agriculture, Faisalabad. Your task is to answer the user's question based only on the context provided. Do not add any information that is not in the context. If the information is not available in the context, say that you do not have that information.\n\nPlease provide clear, helpful, and accurate information based on the context. Be conversational and welcoming, as this is a WhatsApp conversation."

/-- The prompt assembled by `generate_response_with_gemini` (line 112). -/
def full_prompt (user_question context : String) : String :=
  system_prompt ++ "\n\nContext:\n" ++ context ++ "\n\nUser Question: " ++ user_question
    ++ "\n\nPlease provide a helpful response based on the context above."

/-- The fixed apology returned by the except branch (line 119). -/
def APOLOGY_MESSAGE : String :=
  "I apologize, but I'm experiencing technical difficulties. Please try again later or contact the university directly for assistance."

/-- `generate_response_with_gemini` (src/main.py lines 105-119).  The
external `gemini_model.generate_content` call is passed as a function
returning either the response text or the message of a raised
exception. -/
def generate_response_with_gemini (generate_content : String → Except String String)
    (user_question context : String) : String :=
  match generate_content (full_prompt user_question context) with
  | .ok response => response.trim
  | .error _ => APOLOGY_MESSAGE

/-- Modelled from the spec (section 4.2, steps 1-3): this scoring
function does not exist in the code; it follows the spec's words for
comparison with `search_programs`.  Score = number of distinct
lowercased whitespace-split query keywords that occur as substrings of
the lowercased space-joined name/category/schedule text of the record
(the record fields `program_name`, `faculty_or_college`,
`program_schedule`). -/
def specScore (query : String) (r : Record) : Nat :=
  ((splitWs (lowerStr query)).dedup.filter
    (fun k => containsSub
      (lowerStr ((r.program_name.getD "") ++ " " ++ (r.faculty_or_college.getD "")
        ++ " " ++ (r.program_schedule.getD ""))) k)).length

/-- Propositional form of the per-record match test of
`search_programs`. -/
def matchesProp (user_message_lower : List Char) (r : Record) : Prop :=
  (∃ t ∈ splitWs (lowerStr (r.program_name.getD "")), t <:+: user_message_lower)
    ∨ (∃ t ∈ splitWs (lowerStr (r.faculty_or_college.getD "")), t <:+: user_message_lower)

instance (m : List Char) (r : Record) : Decidable (matchesProp m r) := by
  unfold matchesProp
  exact inferInstance

/-- A record with only the name and faculty fields populated. -/
def mkRec (name fac : Option String) : Record :=
  ⟨name, fac, none, none, none, none, none⟩

def recAgriculture : Record := mkRec (some "agriculture") none

def recBtech : Record := mkRec (some "btech") none

def recArt : Record := mkRec (some "art") none

def recZzz : Record := mkRec (some "zzz") none

def recQqq : Record := mkRec (some "qqq") none

def recWww : Record := mkRec (some "www") none

def recXY : Record := mkRec (some "x y") none

def recXYZ : Record := mkRec (some "x y z") none

/-- A record with every field populated. -/
def recFull : Record :=
  ⟨some "agri", some "agr fac", some "morning", some "fsc", some "extra",
   some ["pre-agri"], some "remark"⟩

/-! ## Helper lemmas -/

theorem eq_nil_of_infix_nil {α : Type} {t : List α} (h : t <:+: ([] : List α)) :
    t = [] := by
  rcases h with ⟨s, u, hsu⟩
  simp only [List.append_eq_nil] at hsu
  exact hsu.1.2

theorem mem_splitWsAux_ne_nil (l : List Char) :
    ∀ acc t, t ∈ splitWsAux l acc → t ≠ [] := by
  induction l with
  | nil =>
    intro acc t ht
    by_cases h : acc = []
    · simp [splitWsAux, h] at ht
    · simp only [splitWsAux, if_neg h, List.mem_singleton] at ht
      simp [ht, h]
  | cons c rest ih =>
    intro acc t ht
    by_cases hw : c.isWhitespace
    · by_cases h : acc = []
      · simp only [splitWsAux, if_pos hw, if_pos h] at ht
        exact ih [] t ht
      · simp only [splitWsAux, if_pos hw, if_neg h, List.mem_cons] at ht
        rcases ht with ht | ht
        · simp [ht, h]
        · exact ih [] t ht
    · simp only [splitWsAux, if_neg hw] at ht
      exact ih (c :: acc) t ht

theorem mem_splitWs_ne_nil (l : List Char) (t : List Char) (ht : t ∈ splitWs l) :
    t ≠ [] :=
  mem_splitWsAux_ne_nil l [] t ht

theorem recordMatches_nil (r : Record) : recordMatches [] r = false := by
  unfold recordMatches
  simp only [Bool.or_eq_false_iff, List.any_eq_false]
  constructor <;>
    · intro t ht hsub
      unfold containsSub at hsub
      exact mem_splitWs_ne_nil _ t ht (eq_nil_of_infix_nil (of_decide_eq_true hsub))

theorem recordMatches_iff (m : List Char) (r : Record) :
    recordMatches m r = true ↔ matchesProp m r := by
  unfold recordMatches matchesProp containsSub
  simp [List.any_eq_true]

theorem mem_joinWithNl (x : List Char) :
    ∀ ls : List (List Char), x ∈ ls → x <:+: joinWithNl ls := by
  intro ls
  induction ls with
  | nil => intro h; simp at h
  | cons a rest ih =>
    intro hx
    rcases List.mem_cons.mp hx with h | h
    · subst h
      cases rest with
      | nil => exact ⟨[], [], by simp [joinWithNl]⟩
      | cons b t => exact ⟨[], '\n' :: joinWithNl (b :: t), by simp [joinWithNl]⟩
    · cases rest with
      | nil => simp at h
      | cons b t =>
        obtain ⟨s, u, hsu⟩ := ih h
        exact ⟨a ++ '\n' :: s, u, by simp [joinWithNl, ← hsu]⟩

theorem label_lines_mem_renderRecord (i : Nat) (p : Record) :
    ("Program Name: " ++ p.program_name.getD "N/A") ∈ renderRecord i p
    ∧ ("Faculty/College: " ++ p.faculty_or_college.getD "N/A") ∈ renderRecord i p
    ∧ ("Schedule: " ++ p.program_schedule.getD "N/A") ∈ renderRecord i p
    ∧ ("Eligibility Criteria: " ++ p.eligibility_criteria.getD "N/A") ∈ renderRecord i p := by
  unfold renderRecord
  refine ⟨?_, ?_, ?_, ?_⟩ <;> simp

theorem mem_format_parts_of_mem (p : Record) (s : String) :
    ∀ (l : List Record) (j : Nat), p ∈ l → (∀ i, s ∈ renderRecord i p) →
      s ∈ format_parts j l := by
  intro l
  induction l with
  | nil => intro j hp _; simp at hp
  | cons a rest ih =>
    intro j hp hs
    unfold format_parts
    rcases List.mem_cons.mp hp with h | h
    · subst h; exact List.mem_append_left _ (hs j)
    · exact List.mem_append_right _ (ih (j + 1) h hs)

theorem format_parts_has_block_for_every_index :
    ∀ (l : List Record) (j i : Nat), i < l.length →
      ("Program " ++ toString (j + i + 1) ++ ":") ∈ format_parts j l := by
  intro l
  induction l with
  | nil => intro j i h; simp at h
  | cons a rest ih =>
    intro j i h
    unfold format_parts
    cases i with
    | zero =>
      apply List.mem_append_left
      unfold renderRecord
      simp
    | succ k =>
      apply List.mem_append_right
      have hk : k < rest.length := by simpa using h
      have := ih (j + 1) k hk
      have harith : j + 1 + k + 1 = j + (k + 1) + 1 := by omega
      rwa [harith] at this

/-! ## Claim theorems -/

/-- C1 counterexample: for the query "ag" against a two-record catalog,
the spec's rule (keep exactly the records whose keyword-substring score
is positive) would keep only the "agriculture" record, but
`search_programs` matches in the opposite direction (record tokens as
substrings of the query), finds nothing, and falls back to the whole
catalog. -/
theorem search_programs_specScore_filter_cex :
    search_programs "ag" [recAgriculture, recBtech]
      ≠ List.filter (fun r => decide (0 < specScore "ag" r)) [recAgriculture, recBtech] := by
  decide

/-- C1 (amended): whenever at least one record matches, `search_programs`
returns exactly the catalog records for which some lowercased
whitespace-split token of `program_name` or `faculty_or_college` occurs
as a substring of the lowercased user message. -/
theorem search_programs_matches_characterization (q : String) (cat : List Record)
    (h : ∃ r ∈ cat, matchesProp (lowerStr q) r) :
    search_programs q cat = cat.filter (recordMatches (lowerStr q))
    ∧ ∀ r : Record, recordMatches (lowerStr q) r = true ↔ matchesProp (lowerStr q) r := by
  refine ⟨?_, fun r => recordMatches_iff _ r⟩
  obtain ⟨r, hr, hm⟩ := h
  have hfil : cat.filter (recordMatches (lowerStr q)) ≠ [] := by
    intro hnil
    have hall := List.filter_eq_nil_iff.mp hnil r hr
    exact hall ((recordMatches_iff _ r).mpr hm)
  unfold search_programs
  rw [if_neg]
  intro hcond
  exact hfil hcond.1

/-- C1 witness: the query "artistic" matches the record named "art", and
the result is exactly the filtered catalog. -/
theorem search_programs_matches_characterization_witness :
    search_programs "artistic" [recArt, recZzz]
      = List.filter (recordMatches (lowerStr "artistic")) [recArt, recZzz] :=
  (search_programs_matches_characterization "artistic" [recArt, recZzz] (by decide)).1

/-- C2 counterexample: on a six-record input the block header of the
sixth record appears in the formatted context, and dropping records
beyond the fifth changes the output, so `format_program_context` does
not truncate to five records. -/
theorem format_program_context_renders_sixth_record :
    ("Program " ++ toString 6 ++ ":").data
        <:+: (format_program_context (List.replicate 6 recArt)).data
    ∧ format_program_context (List.replicate 6 recArt)
        ≠ format_program_context (List.take 5 (List.replicate 6 recArt)) := by
  decide

/-- C2 (amended): `format_program_context` renders every record of its
input, with no truncation: for each index `i` below the length of the
input, the block header "Program i+1:" occurs in the returned context
string. -/
theorem format_program_context_renders_every_record (l : List Record) (i : Nat)
    (h : i < l.length) :
    ("Program " ++ toString (i + 1) ++ ":").data <:+: (format_program_context l).data := by
  have hne : l ≠ [] := by rintro rfl; simp at h
  have hmem : ("Program " ++ toString (i + 1) ++ ":") ∈ format_parts 0 l := by
    have := format_parts_has_block_for_every_index l 0 i h
    simpa using this
  unfold format_program_context
  rw [if_neg hne]
  exact mem_joinWithNl _ _ (List.mem_map_of_mem String.data hmem)

/-- C2 witness: the single record of a one-record input is rendered. -/
theorem format_program_context_renders_every_record_witness :
    ("Program " ++ toString (0 + 1) ++ ":").data
      <:+: (format_program_context [recArt]).data :=
  format_program_context_renders_every_record [recArt] 0 (by decide)

/-- C3 counterexample: for the query "x y z", the output keeps the
record "x y" (spec score 2) before the record "x y z" (spec score 3),
so the output is not sorted in descending score order. -/
theorem search_programs_not_sorted_by_specScore :
    ¬ List.Pairwise (fun a b => specScore "x y z" b ≤ specScore "x y z" a)
        (search_programs "x y z" [recXY, recXYZ]) := by
  decide

/-- C3 (amended): `search_programs` performs no sorting at all: its
output is always either the catalog filtered by the match test or the
first-3 fallback prefix, each of which keeps every pair of records —
equal score or not — in their relative catalog order. -/
theorem search_programs_preserves_catalog_order (q : String) (cat : List Record) :
    search_programs q cat = cat.filter (recordMatches (lowerStr q))
    ∨ search_programs q cat = cat.take 3 := by
  unfold search_programs
  split
  · exact Or.inr rfl
  · exact Or.inl rfl

/-- C4 counterexample: for the query "parties" no record of the catalog
[zzz, art, qqq, www] has a positive spec score, yet the output is [art]
(the token "art" is a substring of "parties"), not the first three
records. -/
theorem search_programs_fallback_specScore_cex :
    specScore "parties" recZzz = 0
    ∧ specScore "parties" recArt = 0
    ∧ specScore "parties" recQqq = 0
    ∧ specScore "parties" recWww = 0
    ∧ search_programs "parties" [recZzz, recArt, recQqq, recWww]
        ≠ List.take 3 [recZzz, recArt, recQqq, recWww] := by
  decide

/-- C4 (amended): if the catalog is non-empty and no record matches the
code's criterion (no token of its name or faculty is a substring of the
lowercased query), `search_programs` returns the first 3 catalog records
in original order; on an empty catalog it returns the empty list. -/
theorem search_programs_fallback (q : String) (cat : List Record) :
    (cat ≠ [] → (∀ r ∈ cat, recordMatches (lowerStr q) r = false) →
      search_programs q cat = cat.take 3)
    ∧ search_programs q [] = [] := by
  constructor
  · intro hne hall
    have hfil : cat.filter (recordMatches (lowerStr q)) = [] :=
      List.filter_eq_nil_iff.mpr (fun a ha => by simp [hall a ha])
    unfold search_programs
    rw [if_pos ⟨hfil, hne⟩]
  · unfold search_programs
    simp

/-- C4 witness: the query "zz" matches nothing in the one-record catalog
[art], so the fallback fires; and the empty catalog yields []. -/
theorem search_programs_fallback_witness :
    search_programs "zz" [recArt] = List.take 3 [recArt]
    ∧ search_programs "zz" [] = [] :=
  ⟨(search_programs_fallback "zz" [recArt]).1 (by decide) (by decide),
   (search_programs_fallback "zz" []).2⟩

/-- C5: the empty query matches no record (its code match test is false
and its spec score is 0 for every record), so on a non-empty catalog
`search_programs` returns the first 3 records in original order. -/
theorem search_programs_empty_query (cat : List Record) (h : cat ≠ []) :
    (∀ r ∈ cat, recordMatches (lowerStr "") r = false)
    ∧ (∀ r ∈ cat, specScore "" r = 0)
    ∧ search_programs "" cat = cat.take 3 := by
  have hlow : lowerStr "" = [] := rfl
  have hmatch : ∀ r ∈ cat, recordMatches (lowerStr "") r = false := by
    intro r _
    rw [hlow]
    exact recordMatches_nil r
  refine ⟨hmatch, fun r _ => rfl, ?_⟩
  have hfil : cat.filter (recordMatches (lowerStr "")) = [] :=
    List.filter_eq_nil_iff.mpr (fun a ha => by simp [hmatch a ha])
  unfold search_programs
  rw [if_pos ⟨hfil, h⟩]

/-- C5 witness: on the 4-record catalog [agriculture, btech, art, zzz]
the empty query yields exactly the first three records. -/
theorem search_programs_empty_query_witness :
    search_programs "" [recAgriculture, recBtech, recArt, recZzz]
      = [recAgriculture, recBtech, recArt] :=
  (search_programs_empty_query [recAgriculture, recBtech, recArt, recZzz] (by decide)).2.2

/-- C6: `load_university_data` maps both failure outcomes (missing file
and JSON decode error) to the empty catalog, returning normally. -/
theorem load_university_data_failure_empty :
    load_university_data LoadResult.fileNotFound = []
    ∧ load_university_data LoadResult.jsonDecodeError = [] :=
  ⟨rfl, rfl⟩

/-- C7: whenever the external generation call fails with any exception,
`generate_response_with_gemini` returns the fixed apology string. -/
theorem generate_response_error_returns_apology
    (generate_content : String → Except String String) (user_question context : String)
    (h : ∃ e, generate_content (full_prompt user_question context) = Except.error e) :
    generate_response_with_gemini generate_content user_question context
      = APOLOGY_MESSAGE := by
  obtain ⟨e, he⟩ := h
  unfold generate_response_with_gemini
  rw [he]

/-- C7 witness: a call that raises a timeout yields the apology. -/
theorem generate_response_error_returns_apology_witness :
    generate_response_with_gemini (fun _ => Except.error "ReadTimeout") "q" "ctx"
      = APOLOGY_MESSAGE :=
  generate_response_error_returns_apology (fun _ => Except.error "ReadTimeout") "q" "ctx"
    ⟨"ReadTimeout", rfl⟩

/-- C8: for every record of the input, the formatted context contains
the four labeled lines (name, faculty/category, schedule, eligibility),
each rendered with the explicit "N/A" placeholder when the field is
absent; and the empty input yields the fixed sentinel string. -/
theorem format_program_context_labeled_fields (programs : List Record) (p : Record)
    (hp : p ∈ programs) :
    ("Program Name: " ++ p.program_name.getD "N/A").data
        <:+: (format_program_context programs).data
    ∧ ("Faculty/College: " ++ p.faculty_or_college.getD "N/A").data
        <:+: (format_program_context programs).data
    ∧ ("Schedule: " ++ p.program_schedule.getD "N/A").data
        <:+: (format_program_context programs).data
    ∧ ("Eligibility Criteria: " ++ p.eligibility_criteria.getD "N/A").data
        <:+: (format_program_context programs).data
    ∧ format_program_context [] = "No specific program information available." := by
  have hne : programs ≠ [] := by rintro rfl; simp at hp
  have key : ∀ s : String, (∀ i, s ∈ renderRecord i p) →
      s.data <:+: (format_program_context programs).data := by
    intro s hs
    unfold format_program_context
    rw [if_neg hne]
    exact mem_joinWithNl _ _
      (List.mem_map_of_mem String.data (mem_format_parts_of_mem p s programs 0 hp hs))
  exact ⟨key _ (fun i => (label_lines_mem_renderRecord i p).1),
         key _ (fun i => (label_lines_mem_renderRecord i p).2.1),
         key _ (fun i => (label_lines_mem_renderRecord i p).2.2.1),
         key _ (fun i => (label_lines_mem_renderRecord i p).2.2.2),
         rfl⟩

/-- C8 witness: a record with only a name gets all four labeled lines,
the missing ones with the placeholder. -/
theorem format_program_context_labeled_fields_witness :
    ("Program Name: " ++ (Record.program_name recArt).getD "N/A").data
      <:+: (format_program_context [recArt]).data :=
  (format_program_context_labeled_fields [recArt] recArt (by decide)).1

/-- C9: the output of `search_programs` is always a subsequence of the
catalog: each catalog entry contributes at most once (the name and
faculty tests are joined by elif) and selected records keep their
original catalog order. -/
theorem search_programs_sublist_of_catalog (q : String) (cat : List Record) :
    List.Sublist (search_programs q cat) cat := by
  unfold search_programs
  split
  · exact List.take_sublist 3 cat
  · exact List.filter_sublist cat

/-- C10: an optional field that is present but empty is rendered exactly
like an absent one — the corresponding labeled line is omitted — and a
record with all three optional fields absent renders as just the four
labeled lines between the header and the separator. -/
theorem format_empty_optional_like_absent (i : Nat) (p : Record) :
    renderRecord i { p with additional_requirements := some "" }
        = renderRecord i { p with additional_requirements := none }
    ∧ renderRecord i { p with entry_test_streams := some [] }
        = renderRecord i { p with entry_test_streams := none }
    ∧ renderRecord i { p with notes := some "" }
        = renderRecord i { p with notes := none }
    ∧ renderRecord i
        { p with additional_requirements := none, entry_test_streams := none, notes := none }
        = ["Program " ++ toString (i + 1) ++ ":",
           "Program Name: " ++ p.program_name.getD "N/A",
           "Faculty/College: " ++ p.faculty_or_college.getD "N/A",
           "Schedule: " ++ p.program_schedule.getD "N/A",
           "Eligibility Criteria: " ++ p.eligibility_criteria.getD "N/A",
           ""] := by
  refine ⟨?_, ?_, ?_, ?_⟩ <;> simp [renderRecord]
